import Mathlib

/-!
Verification development for the `email-parser-ui` repository.

The development shallowly embeds the log-streaming viewer component
(`src/components/cloudwatch-logs-viewer.tsx`) and the email upload form
(`EmailUploadForm`, with its `handleFileSelect` / `handleDrop` / `handleUpload`
handlers) as pure Lean functions over explicit state records.

Modelling conventions:
- Optional TypeScript fields (`timestamp?: number`, `message?: string`, ...)
  become `Option` fields.  JavaScript `a.timestamp || 0` becomes
  `Option.getD · 0` (both map `undefined` and `0` to `0`).
- The asynchronous `fetchLogs` call is split into a synchronous start phase
  (the guard, `setIsLoading(true)`, `setError(null)`, issuing the request) and
  a completion phase parameterised by the outcome of the external call
  (`FetchOutcome`).  Each event handler returns the new state together with
  the number of external requests it issued, so that "no second fetch is
  initiated" and "zero network calls" are directly expressible.
- ECMAScript `Array.prototype.sort` is a stable sort; it is modelled by
  `List.insertionSort`, which is stable for the comparator used here
  (an element is inserted before the first element it is `≤` to, hence
  before later elements with an equal key).
- The `filter((log, index, self) => index === self.findIndex(...))`
  deduplication idiom is translated literally (`uniqueLogs`, via `enum` and
  `findIdx`) and proved equal to a structural first-occurrence recursion
  (`dedupByFirst`), which the proofs then use.
-/

/-- Model of the AWS SDK `FilteredLogEvent` record: every field is optional.
Only `timestamp` and `message` are inspected by the viewer logic. -/
structure FilteredLogEvent where
  logStreamName : Option String := none
  timestamp : Option Int := none
  message : Option String := none
  ingestionTime : Option Int := none
  eventId : Option String := none
deriving DecidableEq, Repr

/-- The duplicate test used in `fetchLogs` (line 145):
`l.timestamp === log.timestamp && l.message === log.message`. -/
def pairEq (a b : FilteredLogEvent) : Bool :=
  a.timestamp == b.timestamp && a.message == b.message

/-- The sort key used in `fetchLogs` (lines 147 and 150): `timestamp || 0`. -/
def tsKey (r : FilteredLogEvent) : Int :=
  r.timestamp.getD 0

/-- The comparison relation of the comparator `(a, b) => (a.timestamp || 0) - (b.timestamp || 0)`. -/
def tsLe (a b : FilteredLogEvent) : Prop :=
  tsKey a ≤ tsKey b

instance : DecidableRel tsLe :=
  fun a b => inferInstanceAs (Decidable (tsKey a ≤ tsKey b))

instance : IsTotal FilteredLogEvent tsLe :=
  ⟨fun a b => Int.le_total (tsKey a) (tsKey b)⟩

instance : IsTrans FilteredLogEvent tsLe :=
  ⟨fun _ _ _ hab hbc => Int.le_trans hab hbc⟩

/-- Model of `.sort((a, b) => (a.timestamp || 0) - (b.timestamp || 0))`
(lines 147 and 150).  `Array.prototype.sort` is a stable comparison sort;
`List.insertionSort` with the non-strict key comparison is stable, hence it
computes the same list. -/
def sortByTimestamp (l : List FilteredLogEvent) : List FilteredLogEvent :=
  List.insertionSort tsLe l

/-- Literal translation of the deduplication in `fetchLogs` (lines 144-146):

`combinedLogs.filter((log, index, self) => index === self.findIndex(l => l.timestamp === log.timestamp && l.message === log.message))`

`List.findIdx` returns the length of the list when no element matches, where
JavaScript `findIndex` returns `-1`; both differ from every in-range index, and
here a match always exists (the element itself), so the two agree. -/
def uniqueLogs (l : List FilteredLogEvent) : List FilteredLogEvent :=
  ((l.enum).filter (fun p => l.findIdx (fun y => pairEq y p.2) == p.1)).map Prod.snd

/-- Structural characterisation of keep-first-occurrence deduplication:
keep the head, drop every later record with the same (timestamp, message)
pair, recurse.  Proved equal to `uniqueLogs` in `uniqueLogs_eq_dedupByFirst`. -/
def dedupByFirst : List FilteredLogEvent → List FilteredLogEvent
  | [] => []
  | x :: xs => x :: dedupByFirst (xs.filter (fun y => !pairEq x y))
termination_by l => l.length
decreasing_by
  simp only [List.length_cons]
  exact Nat.lt_succ_of_le (List.length_filter_le _ _)

/-- Model of the append-mode merge in `fetchLogs` (lines 141-148):
concatenate, deduplicate by (timestamp, message) keeping first occurrences,
stable-sort ascending by timestamp. -/
def mergeAppend (prevLogs newLogs : List FilteredLogEvent) : List FilteredLogEvent :=
  sortByTimestamp (uniqueLogs (prevLogs ++ newLogs))

/-- Outcome of the awaited external call `client.send(FilterLogEventsCommand)`:
either a response (whose `events` field, defaulted with `|| []`, is the record
list) or a thrown error, of which `fetchLogs` keeps the message string
(`error instanceof Error ? error.message : 'Unknown error'`). -/
inductive FetchOutcome where
  | success (events : List FilteredLogEvent)
  | failure (message : String)
deriving DecidableEq, Repr

/-- State of the `CloudWatchLogsViewer` component that the log fetch cycle
touches.  `intervalMs` models `intervalRef.current`: `none` when no interval
is armed, `some p` when an interval with period `p` milliseconds is armed.
`clientInitialized` models `client !== null`. -/
structure ViewerState where
  logs : List FilteredLogEvent := []
  isLoading : Bool := false
  error : Option String := none
  isStreaming : Bool := false
  selectedLogGroup : String := ""
  intervalMs : Option Nat := none
  clientInitialized : Bool := true
deriving DecidableEq, Repr

/-- The guard at the top of `fetchLogs` (line 124):
`if (!client || !selectedLogGroup) return;`.  A string is falsy exactly when
it is empty. -/
def fetchGuard (s : ViewerState) : Bool :=
  s.clientInitialized && !(s.selectedLogGroup == "")

/-- Synchronous start phase of `fetchLogs` (lines 124-137): the guard, then
`setIsLoading(true)`, `setError(null)` and issuing the external request.
Returns the new state and whether a request was issued. -/
def fetchLogsStart (s : ViewerState) : ViewerState × Bool :=
  if fetchGuard s then
    ({ s with isLoading := true, error := none }, true)
  else
    (s, false)

/-- Completion phase of `fetchLogs` (lines 138-163): on success merge the
events (append-mode, lines 140-148) or replace-and-sort them (line 150); on a
thrown error set the error message (line 160); in both cases `finally` clears
`isLoading` (line 162). -/
def fetchLogsFinish (append : Bool) (outcome : FetchOutcome) (s : ViewerState) : ViewerState :=
  match outcome with
  | .success events =>
      { s with
        logs := if append then mergeAppend s.logs events else sortByTimestamp events,
        isLoading := false }
  | .failure msg =>
      { s with
        error := some ("Failed to fetch logs: " ++ msg),
        isLoading := false }

/-- The whole `fetchLogs(append)` call (lines 123-164), with the outcome of the
external request supplied as a parameter.  The second component reports whether
an external request was issued by this invocation. -/
def fetchLogs (append : Bool) (outcome : FetchOutcome) (s : ViewerState) : ViewerState × Bool :=
  let started := fetchLogsStart s
  if started.2 then (fetchLogsFinish append outcome started.1, true) else (started.1, false)

/-- The interval period passed to `setInterval` in `toggleStreaming`
(line 176): 3000 milliseconds. -/
def streamingPeriodMs : Nat := 3000

/-- A tick of the armed interval: `setInterval` only invokes its callback
`() => fetchLogs(true)` while the interval has not been cleared. -/
def timerTick (outcome : FetchOutcome) (s : ViewerState) : ViewerState × Bool :=
  if s.intervalMs.isSome then fetchLogs true outcome s else (s, false)

/-- Model of `toggleStreaming` (lines 167-179).  Stopping clears the interval
and leaves streaming; starting performs `fetchLogs()` (append defaulted to
`false`), arms the 3000 ms interval of `fetchLogs(true)` calls and sets
streaming.  The fetch result is merged when the awaited call returns; since
`fetchLogs` and the flag updates touch disjoint fields, the composition below
is their combined effect. -/
def toggleStreaming (outcome : FetchOutcome) (s : ViewerState) : ViewerState :=
  if s.isStreaming then
    { s with intervalMs := none, isStreaming := false }
  else
    let s1 := (fetchLogs false outcome s).1
    { s1 with intervalMs := some streamingPeriodMs, isStreaming := true }

/-- Model of the unmount cleanup effect (lines 182-188): clear the interval if
armed. -/
def unmountCleanup (s : ViewerState) : ViewerState :=
  { s with intervalMs := none }

/-- Enabled condition of the Refresh button (line 288):
`disabled={!selectedLogGroup || isLoading}`. -/
def refreshButtonEnabled (s : ViewerState) : Bool :=
  !(s.selectedLogGroup == "") && !s.isLoading

/-- A user press of the Refresh button (line 285): the browser does not invoke
`onClick` of a disabled button; otherwise the handler is `() => fetchLogs()`. -/
def pressRefresh (outcome : FetchOutcome) (s : ViewerState) : ViewerState × Bool :=
  if refreshButtonEnabled s then fetchLogs false outcome s else (s, false)

/-- Model of the Clear Logs button handler (line 295): `setLogs([])`. -/
def clearLogs (s : ViewerState) : ViewerState :=
  { s with logs := [] }

/-- Model of the log-group select `onChange` handler (line 242):
`setSelectedLogGroup(e.target.value)` and nothing else. -/
def selectGroup (g : String) (s : ViewerState) : ViewerState :=
  { s with selectedLogGroup := g }

/-- Model of JavaScript `String.prototype.includes`: substring containment,
case-sensitive. -/
def strIncludes (s pat : String) : Bool :=
  decide (pat.toList <:+: s.toList)

/-- The display projection `filteredLogs` (lines 206-208):

`emailId ? logs.filter(log => log.message?.includes(emailId)) : logs`

A missing or empty (falsy) `emailId` selects the unfiltered branch; otherwise
`log.message?.includes(emailId)` is `undefined` (falsy) when `message` is
absent. -/
def filteredLogs (emailId : Option String) (logs : List FilteredLogEvent) : List FilteredLogEvent :=
  match emailId with
  | none => logs
  | some e =>
      if e == "" then logs
      else logs.filter (fun log => (log.message.map (fun m => strIncludes m e)).getD false)

/-- Predicate written from the wording of the spec (section 4.4): a record
matches a correlation string when its message text contains it as a
case-sensitive substring; a record with no message text matches nothing. -/
def messageMatches (e : String) (r : FilteredLogEvent) : Bool :=
  match r.message with
  | some m => strIncludes m e
  | none => false

/-- The part of a browser `File` object inspected by `EmailUploadForm`:
`name` and `size` (bytes). -/
structure JsFile where
  name : String
  size : Nat
deriving DecidableEq, Repr

/-- The `uploadStatus` state of `EmailUploadForm`. -/
inductive UploadStatus where
  | idle
  | success
  | error
deriving DecidableEq, Repr

/-- State of the `EmailUploadForm` component. -/
structure UploadState where
  isUploading : Bool := false
  uploadStatus : UploadStatus := .idle
  uploadMessage : String := ""
  selectedFile : Option JsFile := none
deriving DecidableEq, Repr

/-- The extension check of `handleFileSelect` / `handleDrop`:
`file.name.endsWith('.eml') || file.name.endsWith('.msg') || file.name.endsWith('.txt')`,
modelled on character lists. -/
def hasAllowedExt (name : String) : Bool :=
  decide (".eml".toList <:+ name.toList) ||
    decide (".msg".toList <:+ name.toList) ||
    decide (".txt".toList <:+ name.toList)

/-- The size cap of `handleFileSelect` / `handleDrop`: `10 * 1024 * 1024` bytes. -/
def maxUploadBytes : Nat := 10 * 1024 * 1024

/-- Model of `handleFileSelect` (lines 573-594 of the upload form source):
validate extension, then size, and only on success record the selected file.
The handler issues no network request on any path; the second component counts
the requests it issues (always 0). -/
def handleFileSelect (file : Option JsFile) (s : UploadState) : UploadState × Nat :=
  match file with
  | none => (s, 0)
  | some f =>
      if !hasAllowedExt f.name then
        ({ s with uploadStatus := .error,
                  uploadMessage := "Please select an email file (.eml, .msg, or .txt)" }, 0)
      else if f.size > maxUploadBytes then
        ({ s with uploadStatus := .error,
                  uploadMessage := "File size must be less than 10MB" }, 0)
      else
        ({ s with selectedFile := some f, uploadStatus := .idle, uploadMessage := "" }, 0)

/-- Model of `handleDrop` (lines 650-675): after `preventDefault`, the same
validation and state updates as `handleFileSelect`, applied to the first
dropped file. -/
def handleDrop (file : Option JsFile) (s : UploadState) : UploadState × Nat :=
  match file with
  | none => (s, 0)
  | some f =>
      if !hasAllowedExt f.name then
        ({ s with uploadStatus := .error,
                  uploadMessage := "Please select an email file (.eml, .msg, or .txt)" }, 0)
      else if f.size > maxUploadBytes then
        ({ s with uploadStatus := .error,
                  uploadMessage := "File size must be less than 10MB" }, 0)
      else
        ({ s with selectedFile := some f, uploadStatus := .idle, uploadMessage := "" }, 0)

/-- Outcome of the awaited `fetch(s3Url, { method: 'PUT', ... })` call: a
response with its `ok` flag, status and status text, or a thrown network
error of which the handler keeps the message. -/
inductive UploadOutcome where
  | response (ok : Bool) (status : Nat) (statusText : String)
  | networkError (message : String)
deriving DecidableEq, Repr

/-- Model of `handleUpload` (lines 596-643): a no-op without a selected file;
otherwise exactly one PUT request is issued, then the status, message and
(on success) the selected file are updated; `finally` clears `isUploading`.
The generated object key `emails/email-<timestamp>.<ext>` does not affect any
modelled field and is elided. -/
def handleUpload (outcome : UploadOutcome) (s : UploadState) : UploadState × Nat :=
  match s.selectedFile with
  | none => (s, 0)
  | some _ =>
      match outcome with
      | .response true _ _ =>
          ({ s with uploadStatus := .success,
                    uploadMessage := "Email uploaded successfully! Processing will begin automatically.",
                    selectedFile := none,
                    isUploading := false }, 1)
      | .response false st stTxt =>
          ({ s with uploadStatus := .error,
                    uploadMessage := "Upload failed: " ++ toString st ++ " " ++ stTxt,
                    isUploading := false }, 1)
      | .networkError msg =>
          ({ s with uploadStatus := .error,
                    uploadMessage := msg,
                    isUploading := false }, 1)

/-- The accumulated list is free of duplicate (timestamp, message) pairs. -/
def pairDistinct (l : List FilteredLogEvent) : Prop :=
  l.Pairwise (fun a b => pairEq a b = false)

instance (l : List FilteredLogEvent) : Decidable (pairDistinct l) :=
  inferInstanceAs (Decidable (l.Pairwise (fun a b => pairEq a b = false)))

/-- A record is not (timestamp, message)-equal to any record of `seen`. -/
def notSeen (seen : List FilteredLogEvent) (y : FilteredLogEvent) : Bool :=
  seen.all (fun z => !pairEq z y)

theorem pairEq_iff {a b : FilteredLogEvent} :
    pairEq a b = true ↔ a.timestamp = b.timestamp ∧ a.message = b.message := by
  simp [pairEq]

theorem pairEq_refl (a : FilteredLogEvent) : pairEq a a = true := by
  simp [pairEq]

theorem pairEq_symm (a b : FilteredLogEvent) : pairEq a b = pairEq b a := by
  by_cases h : pairEq a b = true
  · rcases pairEq_iff.mp h with ⟨h1, h2⟩
    exact (h.trans (pairEq_iff.mpr ⟨h1.symm, h2.symm⟩).symm)
  · rcases hba : pairEq b a with _ | _
    · simpa using h
    · rcases pairEq_iff.mp hba with ⟨h1, h2⟩
      exact absurd (pairEq_iff.mpr ⟨h1.symm, h2.symm⟩) h

theorem pairEq_trans {a b c : FilteredLogEvent}
    (hab : pairEq a b = true) (hbc : pairEq b c = true) : pairEq a c = true := by
  rcases pairEq_iff.mp hab with ⟨h1, h2⟩
  rcases pairEq_iff.mp hbc with ⟨h3, h4⟩
  exact pairEq_iff.mpr ⟨h1.trans h3, h2.trans h4⟩

theorem notSeen_eq_not_any (seen : List FilteredLogEvent) (y : FilteredLogEvent) :
    notSeen seen y = !seen.any (fun z => pairEq z y) := by
  induction seen with
  | nil => rfl
  | cons z seen ih =>
      have ih2 : seen.all (fun w => !pairEq w y) = !seen.any (fun w => pairEq w y) := by
        simpa [notSeen] using ih
      simp [notSeen, List.all_cons, List.any_cons, Bool.not_or, ih2]

theorem notSeen_append (seen : List FilteredLogEvent) (x y : FilteredLogEvent) :
    notSeen (seen ++ [x]) y = (notSeen seen y && !pairEq x y) := by
  simp [notSeen, List.all_append]

theorem findIdx_append_of_all_not {α : Type} (p : α → Bool) :
    ∀ (seen ys : List α), seen.all (fun z => !p z) = true →
      (seen ++ ys).findIdx p = seen.length + ys.findIdx p := by
  intro seen
  induction seen with
  | nil => intro ys _; simp
  | cons z seen ih =>
      intro ys h
      simp only [List.all_cons, Bool.and_eq_true, Bool.not_eq_true'] at h
      simp only [List.cons_append, List.findIdx_cons, h.1, cond_false, List.length_cons,
        ih ys (by simpa using h.2)]
      omega

theorem findIdx_append_lt {α : Type} (p : α → Bool) :
    ∀ (seen ys : List α), seen.any p = true →
      (seen ++ ys).findIdx p < seen.length := by
  intro seen
  induction seen with
  | nil => intro ys h; simp at h
  | cons z seen ih =>
      intro ys h
      rcases hz : p z with _ | _
      · simp only [List.any_cons, hz, Bool.false_or] at h
        simp only [List.cons_append, List.findIdx_cons, hz, cond_false, List.length_cons]
        exact Nat.succ_lt_succ (ih ys h)
      · simp only [List.cons_append, List.findIdx_cons, hz, cond_true, List.length_cons]
        exact Nat.succ_pos _

theorem dedupByFirst_nil : dedupByFirst [] = [] := by
  simp [dedupByFirst]

theorem dedupByFirst_cons (x : FilteredLogEvent) (xs : List FilteredLogEvent) :
    dedupByFirst (x :: xs) = x :: dedupByFirst (xs.filter (fun y => !pairEq x y)) := by
  simp [dedupByFirst]

theorem uniqueLogs_aux :
    ∀ (xs seen : List FilteredLogEvent),
      ((List.enumFrom seen.length xs).filter
          (fun p => (seen ++ xs).findIdx (fun y => pairEq y p.2) == p.1)).map Prod.snd
        = dedupByFirst (xs.filter (notSeen seen)) := by
  intro xs
  induction xs with
  | nil => intro seen; simp [dedupByFirst_nil]
  | cons x rest ih =>
      intro seen
      have hre : (seen ++ [x]) ++ rest = seen ++ x :: rest := by simp
      have hlen : (seen ++ [x]).length = seen.length + 1 := by simp
      have ihx := ih (seen ++ [x])
      rw [hlen, hre] at ihx
      rcases h : seen.any (fun z => pairEq z x) with _ | _
      · -- x has no earlier duplicate: it is kept
        have hall : seen.all (fun z => !pairEq z x) = true := by
          have h2 := notSeen_eq_not_any seen x
          rw [h] at h2
          simpa [notSeen] using h2
        have hidx : (seen ++ x :: rest).findIdx (fun y => pairEq y x) = seen.length := by
          rw [findIdx_append_of_all_not _ seen (x :: rest) hall]
          simp [List.findIdx_cons, pairEq_refl]
        have hkeep : notSeen seen x = true := by
          rw [notSeen_eq_not_any, h]; rfl
        simp only [List.enumFrom, List.filter_cons, hidx, beq_self_eq_true, eq_self_iff_true,
          if_true, List.map_cons]
        rw [ihx, if_pos hkeep, dedupByFirst_cons, List.filter_filter]
        congr 2
        apply List.filter_congr
        intro y _
        rw [notSeen_append]
        exact (Bool.and_comm _ _).symm
      · -- an earlier record has the same pair: x is dropped
        have hidx : (seen ++ x :: rest).findIdx (fun y => pairEq y x) < seen.length :=
          findIdx_append_lt _ seen (x :: rest) h
        have hdropped : ((seen ++ x :: rest).findIdx (fun y => pairEq y x) == seen.length) =
            false := by
          simp [Nat.ne_of_lt hidx]
        have hdrop : notSeen seen x = false := by
          rw [notSeen_eq_not_any, h]; rfl
        obtain ⟨z, hz, hzx⟩ := List.any_eq_true.mp h
        simp only [List.enumFrom, List.filter_cons, hdropped, Bool.false_eq_true, if_false]
        rw [ihx, if_neg (by simp [hdrop])]
        congr 1
        apply List.filter_congr
        intro y _
        rw [notSeen_append]
        rcases hy : notSeen seen y with _ | _
        · simp
        · have hxy : pairEq x y = false := by
            rcases hxy : pairEq x y with _ | _
            · rfl
            · have hzy : pairEq z y = true := pairEq_trans hzx hxy
              have hany : seen.any (fun w => pairEq w y) = true :=
                List.any_eq_true.mpr ⟨z, hz, hzy⟩
              rw [notSeen_eq_not_any, hany] at hy
              simp at hy
          simp [hxy]

theorem uniqueLogs_eq_dedupByFirst (l : List FilteredLogEvent) :
    uniqueLogs l = dedupByFirst l := by
  have h := uniqueLogs_aux l []
  have hfil : l.filter (notSeen []) = l :=
    List.filter_eq_self.mpr (fun y _ => by simp [notSeen])
  rw [hfil] at h
  simpa [uniqueLogs, List.enum] using h

theorem mem_of_mem_dedupByFirst :
    ∀ {l : List FilteredLogEvent} {y : FilteredLogEvent}, y ∈ dedupByFirst l → y ∈ l := by
  intro l
  induction l using dedupByFirst.induct with
  | case1 => intro y hy; rw [dedupByFirst_nil] at hy; exact absurd hy (List.not_mem_nil y)
  | case2 x xs ih =>
      intro y hy
      rw [dedupByFirst_cons] at hy
      rcases List.mem_cons.mp hy with h | h
      · exact h ▸ List.mem_cons_self x xs
      · exact List.mem_cons_of_mem x (List.mem_of_mem_filter (ih h))

theorem dedupByFirst_pairDistinct : ∀ l : List FilteredLogEvent, pairDistinct (dedupByFirst l) := by
  intro l
  induction l using dedupByFirst.induct with
  | case1 => rw [dedupByFirst_nil]; exact List.Pairwise.nil
  | case2 x xs ih =>
      rw [dedupByFirst_cons]
      refine List.Pairwise.cons ?_ ih
      intro y hy
      have hmem : y ∈ xs.filter (fun y => !pairEq x y) := mem_of_mem_dedupByFirst hy
      have := List.of_mem_filter hmem
      simpa using this

theorem dedupByFirst_covers :
    ∀ {l : List FilteredLogEvent} {y : FilteredLogEvent}, y ∈ l →
      ∃ z ∈ dedupByFirst l, pairEq z y = true := by
  intro l
  induction l using dedupByFirst.induct with
  | case1 => intro y hy; exact absurd hy (List.not_mem_nil y)
  | case2 x xs ih =>
      intro y hy
      rw [dedupByFirst_cons]
      rcases List.mem_cons.mp hy with h | h
      · exact ⟨x, List.mem_cons_self _ _, h ▸ pairEq_refl x⟩
      · rcases hxy : pairEq x y with _ | _
        · have hyf : y ∈ xs.filter (fun y => !pairEq x y) :=
            List.mem_filter.mpr ⟨h, by simp [hxy]⟩
          obtain ⟨z, hz, hzy⟩ := ih hyf
          exact ⟨z, List.mem_cons_of_mem x hz, hzy⟩
        · exact ⟨x, List.mem_cons_self _ _, hxy⟩

theorem dedupByFirst_eq_self :
    ∀ {l : List FilteredLogEvent}, pairDistinct l → dedupByFirst l = l := by
  intro l
  induction l using dedupByFirst.induct with
  | case1 => intro _; exact dedupByFirst_nil
  | case2 x xs ih =>
      intro hl
      rcases List.pairwise_cons.mp hl with ⟨hx, hxs⟩
      have hfil : xs.filter (fun y => !pairEq x y) = xs :=
        List.filter_eq_self.mpr (fun y hy => by simp [hx y hy])
      rw [dedupByFirst_cons]
      rw [hfil] at ih ⊢
      rw [ih hxs]

theorem dedupByFirst_append_covered :
    ∀ (a s : List FilteredLogEvent), pairDistinct a →
      (∀ y ∈ s, ∃ z ∈ a, pairEq z y = true) → dedupByFirst (a ++ s) = a := by
  intro a
  induction a with
  | nil =>
      intro s _ hcov
      cases s with
      | nil => exact dedupByFirst_nil
      | cons y t =>
          obtain ⟨z, hz, _⟩ := hcov y (List.mem_cons_self _ _)
          exact absurd hz (List.not_mem_nil z)
  | cons x a2 ih =>
      intro s hdist hcov
      rcases List.pairwise_cons.mp hdist with ⟨hx, ha2⟩
      rw [List.cons_append, dedupByFirst_cons, List.filter_append]
      have hfa : a2.filter (fun y => !pairEq x y) = a2 :=
        List.filter_eq_self.mpr (fun y hy => by simp [hx y hy])
      rw [hfa]
      have hcov2 : ∀ y ∈ s.filter (fun y => !pairEq x y), ∃ z ∈ a2, pairEq z y = true := by
        intro y hy
        have hys : y ∈ s := List.mem_of_mem_filter hy
        have hxy : pairEq x y = false := by simpa using List.of_mem_filter hy
        obtain ⟨z, hz, hzy⟩ := hcov y hys
        rcases List.mem_cons.mp hz with hzx | hz2
        · rw [hzx] at hzy; rw [hzy] at hxy; cases hxy
        · exact ⟨z, hz2, hzy⟩
      rw [ih (s.filter (fun y => !pairEq x y)) ha2 hcov2]

theorem sortByTimestamp_perm (l : List FilteredLogEvent) :
    List.Perm (sortByTimestamp l) l :=
  List.perm_insertionSort tsLe l

theorem sortByTimestamp_sorted (l : List FilteredLogEvent) :
    List.Sorted tsLe (sortByTimestamp l) :=
  List.sorted_insertionSort tsLe l

theorem sortByTimestamp_idem (l : List FilteredLogEvent) :
    sortByTimestamp (sortByTimestamp l) = sortByTimestamp l :=
  (sortByTimestamp_sorted l).insertionSort_eq

theorem pairDistinct_of_perm {l l2 : List FilteredLogEvent}
    (hp : List.Perm l l2) (hd : pairDistinct l) : pairDistinct l2 := by
  have hsym : Symmetric (fun a b : FilteredLogEvent => pairEq a b = false) := by
    intro a b hab
    rw [pairEq_symm] at hab
    exact hab
  exact (hp.pairwise_iff @hsym).mp hd

theorem mergeAppend_pairDistinct (prevLogs newLogs : List FilteredLogEvent) :
    pairDistinct (mergeAppend prevLogs newLogs) := by
  unfold mergeAppend
  rw [uniqueLogs_eq_dedupByFirst]
  exact pairDistinct_of_perm (sortByTimestamp_perm _).symm
    (dedupByFirst_pairDistinct (prevLogs ++ newLogs))

theorem mergeAppend_sorted (prevLogs newLogs : List FilteredLogEvent) :
    List.Sorted tsLe (mergeAppend prevLogs newLogs) :=
  sortByTimestamp_sorted _

theorem mergeAppend_idem (acc newLogs : List FilteredLogEvent) :
    mergeAppend (mergeAppend acc newLogs) newLogs = mergeAppend acc newLogs := by
  unfold mergeAppend
  rw [uniqueLogs_eq_dedupByFirst, uniqueLogs_eq_dedupByFirst]
  have hdistA : pairDistinct (dedupByFirst (acc ++ newLogs)) :=
    dedupByFirst_pairDistinct (acc ++ newLogs)
  have hdistS : pairDistinct (sortByTimestamp (dedupByFirst (acc ++ newLogs))) :=
    pairDistinct_of_perm (sortByTimestamp_perm _).symm hdistA
  have hcov : ∀ y ∈ newLogs,
      ∃ z ∈ sortByTimestamp (dedupByFirst (acc ++ newLogs)), pairEq z y = true := by
    intro y hy
    obtain ⟨z, hz, hzy⟩ :=
      dedupByFirst_covers (List.mem_append.mpr (Or.inr hy))
    exact ⟨z, ((sortByTimestamp_perm _).mem_iff).mpr hz, hzy⟩
  rw [dedupByFirst_append_covered _ _ hdistS hcov, sortByTimestamp_idem]

/-- Sample record with timestamp 1 and message "a" (from spec section 8, property 1). -/
def recA : FilteredLogEvent := { timestamp := some 1, message := some "a" }

/-- Sample record with timestamp 2 and message "b" (from spec section 8, property 1). -/
def recB : FilteredLogEvent := { timestamp := some 2, message := some "b" }

/-- A viewer state with an initialized client, a selected log group and one
accumulated record: the guard of `fetchLogs` passes here. -/
def sessionState : ViewerState :=
  { logs := [recA], selectedLogGroup := "/aws/lambda/email-parser-dev", clientInitialized := true }

/-- The same session while streaming with a fetch in flight (`isLoading`). -/
def busyState : ViewerState :=
  { sessionState with isLoading := true, isStreaming := true, intervalMs := some streamingPeriodMs }

/-- Record whose message mentions the correlation identifier (spec section 8, property 5). -/
def rec123 : FilteredLogEvent := { message := some "processing email-123" }

/-- Record whose message is unrelated to the correlation identifier. -/
def recUnrelated : FilteredLogEvent := { message := some "unrelated" }

/-- Record carrying no message field at all. -/
def recNoMessage : FilteredLogEvent := { timestamp := some 5 }

/-- A file with a disallowed extension (spec section 8, property 6). -/
def pdfFile : JsFile := { name := "report.pdf", size := 1024 }

/-- A 15 MiB file with an allowed extension (spec section 8, property 6). -/
def bigEmlFile : JsFile := { name := "invoice.eml", size := 15 * 1024 * 1024 }

/-- C1, counterexample: the claim says a timer tick invoked while a fetch is
already in flight initiates no second fetch.  In `busyState` a fetch is in
flight (`isLoading = true`), yet a timer tick issues another request:
`fetchLogs` (lines 123-164) never consults `isLoading`. -/
theorem C1_counterexample :
    busyState.isLoading = true
      ∧ (timerTick (FetchOutcome.success [recB]) busyState).2 = true := by
  decide

/-- C1, amended: `fetchLogs` issues the external request exactly when the
client is initialized and a group is selected, regardless of `isLoading`
(so a timer tick during an in-flight fetch does start a second fetch);
manual refresh is prevented only at the UI level, because the Refresh button
is disabled while `isLoading` and a disabled button does not fire. -/
theorem C1_theorem (append : Bool) (outcome : FetchOutcome) (s : ViewerState) :
    ((fetchLogs append outcome s).2 = true ↔ fetchGuard s = true)
      ∧ (s.isLoading = true → refreshButtonEnabled s = false)
      ∧ (refreshButtonEnabled s = false → pressRefresh outcome s = (s, false)) := by
  refine ⟨?_, ?_, ?_⟩
  · unfold fetchLogs fetchLogsStart
    rcases h : fetchGuard s with _ | _ <;> simp [h]
  · intro h
    simp [refreshButtonEnabled, h]
  · intro h
    simp [pressRefresh, h]

/-- C1, witness for the amended theorem at the busy session state. -/
theorem C1_theorem_witness :
    ((fetchLogs true (FetchOutcome.success [recB]) busyState).2 = true)
      ∧ refreshButtonEnabled busyState = false :=
  ⟨(C1_theorem true (FetchOutcome.success [recB]) busyState).1.mpr (by decide),
   (C1_theorem true (FetchOutcome.success [recB]) busyState).2.1 (by decide)⟩

/-- C2, counterexample: the claim says the immediate fetch performed on the
Idle-to-Streaming transition is append-mode.  From `sessionState` (idle, one
accumulated record) the start action replaces the accumulated list with the
sorted fetch result instead of merging into it: `toggleStreaming` calls
`fetchLogs()` whose `append` parameter defaults to `false` (line 175). -/
theorem C2_counterexample :
    sessionState.isStreaming = false
      ∧ (toggleStreaming (FetchOutcome.success [recB]) sessionState).logs = [recB]
      ∧ mergeAppend sessionState.logs [recB] = [recA, recB]
      ∧ (toggleStreaming (FetchOutcome.success [recB]) sessionState).logs ≠
          mergeAppend sessionState.logs [recB] := by
  decide

/-- C2, amended: the Idle-to-Streaming transition performs one immediate
replace-mode fetch (not append-mode) and arms the repeating 3000 ms timer,
whose ticks are append-mode fetches; the Streaming-to-Idle transition and the
unmount cleanup disarm the timer, and a tick with no armed timer performs no
fetch. -/
theorem C2_theorem (outcome : FetchOutcome) (s : ViewerState) :
    (s.isStreaming = false →
        toggleStreaming outcome s =
          { (fetchLogs false outcome s).1 with
              intervalMs := some streamingPeriodMs, isStreaming := true })
      ∧ (∀ (o2 : FetchOutcome) (s2 : ViewerState), s2.intervalMs.isSome = true →
          timerTick o2 s2 = fetchLogs true o2 s2)
      ∧ (s.isStreaming = true →
          toggleStreaming outcome s = { s with intervalMs := none, isStreaming := false })
      ∧ (∀ (o2 : FetchOutcome) (s2 : ViewerState), s2.intervalMs = none →
          timerTick o2 s2 = (s2, false))
      ∧ (unmountCleanup s).intervalMs = none := by
  refine ⟨?_, ?_, ?_, ?_, rfl⟩
  · intro h
    simp [toggleStreaming, h]
  · intro o2 s2 h2
    simp [timerTick, h2]
  · intro h
    simp [toggleStreaming, h]
  · intro o2 s2 h2
    simp [timerTick, h2]

/-- C2, witness for the amended theorem: start from the idle session, stop
from the busy streaming session, and a disarmed tick is a no-op. -/
theorem C2_theorem_witness :
    (toggleStreaming (FetchOutcome.success [recB]) sessionState =
        { (fetchLogs false (FetchOutcome.success [recB]) sessionState).1 with
            intervalMs := some streamingPeriodMs, isStreaming := true })
      ∧ (toggleStreaming (FetchOutcome.success [recB]) busyState =
          { busyState with intervalMs := none, isStreaming := false })
      ∧ timerTick (FetchOutcome.success [recB]) sessionState = (sessionState, false) :=
  ⟨(C2_theorem (FetchOutcome.success [recB]) sessionState).1 (by decide),
   (C2_theorem (FetchOutcome.success [recB]) busyState).2.2.1 (by decide),
   (C2_theorem (FetchOutcome.success [recB]) sessionState).2.2.2.1
     (FetchOutcome.success [recB]) sessionState (by decide)⟩

/-- C3, counterexample: the claim says that after every merge, replace-mode
included, the accumulated sequence has no two records with identical
(timestamp, message).  A replace-mode fetch (line 150) only sorts the fetched
records and never deduplicates, so a result containing the same record twice
survives intact. -/
theorem C3_counterexample :
    fetchGuard sessionState = true
      ∧ ¬ pairDistinct
          ((fetchLogs false (FetchOutcome.success [recA, recA]) sessionState).1.logs) := by
  decide

/-- C3, amended: after an append-mode merge the accumulated sequence has no
two records with identical (timestamp, message) and is sorted non-decreasing
by timestamp, for all inputs regardless of order; after a replace-mode merge
it is sorted non-decreasing by timestamp, but duplicates present in the fetch
result are kept. -/
theorem C3_theorem (s : ViewerState) (events : List FilteredLogEvent)
    (h : fetchGuard s = true) :
    pairDistinct ((fetchLogs true (FetchOutcome.success events) s).1.logs)
      ∧ List.Sorted tsLe ((fetchLogs true (FetchOutcome.success events) s).1.logs)
      ∧ List.Sorted tsLe ((fetchLogs false (FetchOutcome.success events) s).1.logs) := by
  have hl1 : (fetchLogs true (FetchOutcome.success events) s).1.logs =
      mergeAppend s.logs events := by
    simp [fetchLogs, fetchLogsStart, fetchLogsFinish, h]
  have hl2 : (fetchLogs false (FetchOutcome.success events) s).1.logs =
      sortByTimestamp events := by
    simp [fetchLogs, fetchLogsStart, fetchLogsFinish, h]
  rw [hl1, hl2]
  exact ⟨mergeAppend_pairDistinct _ _, mergeAppend_sorted _ _, sortByTimestamp_sorted _⟩

/-- C3, witness for the amended theorem at a concrete out-of-order fetch. -/
theorem C3_theorem_witness :
    pairDistinct ((fetchLogs true (FetchOutcome.success [recB, recA]) sessionState).1.logs)
      ∧ List.Sorted tsLe
          ((fetchLogs true (FetchOutcome.success [recB, recA]) sessionState).1.logs)
      ∧ List.Sorted tsLe
          ((fetchLogs false (FetchOutcome.success [recB, recA]) sessionState).1.logs) :=
  C3_theorem sessionState [recB, recA] (by decide)

/-- C4, confirmed: when the external call fails, `fetchLogs` records a
descriptive message in the error state and leaves the accumulated records
and the selected group exactly as they were. -/
theorem C4_theorem (s : ViewerState) (append : Bool) (msg : String)
    (h : fetchGuard s = true) :
    (fetchLogs append (FetchOutcome.failure msg) s).1.logs = s.logs
      ∧ (fetchLogs append (FetchOutcome.failure msg) s).1.selectedLogGroup =
          s.selectedLogGroup
      ∧ (fetchLogs append (FetchOutcome.failure msg) s).1.error =
          some ("Failed to fetch logs: " ++ msg) := by
  simp [fetchLogs, fetchLogsStart, fetchLogsFinish, h]

/-- C4, witness at the concrete session state and a concrete failure. -/
theorem C4_theorem_witness :
    (fetchLogs true (FetchOutcome.failure "Network error") sessionState).1.logs =
        sessionState.logs
      ∧ (fetchLogs true (FetchOutcome.failure "Network error") sessionState).1.selectedLogGroup =
          sessionState.selectedLogGroup
      ∧ (fetchLogs true (FetchOutcome.failure "Network error") sessionState).1.error =
          some ("Failed to fetch logs: " ++ "Network error") :=
  C4_theorem sessionState true "Network error" (by decide)

/-- C5, confirmed: the append-mode merge is idempotent in its fetched input,
and on the concrete spec example merging twice gives exactly the once-merged
list. -/
theorem C5_theorem :
    (∀ acc newLogs : List FilteredLogEvent,
        mergeAppend (mergeAppend acc newLogs) newLogs = mergeAppend acc newLogs)
      ∧ mergeAppend [recA] [recA, recB] = [recA, recB]
      ∧ mergeAppend (mergeAppend [recA] [recA, recB]) [recA, recB] = [recA, recB] :=
  ⟨mergeAppend_idem, by decide, by decide⟩

/-- C6, counterexample: the claim says the accumulated records are cleared
implicitly whenever the selected log group changes.  The select handler
(line 242) only stores the new group name; the accumulated list survives the
change untouched. -/
theorem C6_counterexample :
    (selectGroup "/aws/lambda/supplier-matcher" sessionState).selectedLogGroup ≠
        sessionState.selectedLogGroup
      ∧ (selectGroup "/aws/lambda/supplier-matcher" sessionState).logs = [recA]
      ∧ (selectGroup "/aws/lambda/supplier-matcher" sessionState).logs ≠ [] := by
  decide

/-- C6, amended: the accumulated records are cleared only by the explicit
clear action; changing the selected log group leaves them unchanged. -/
theorem C6_theorem (s : ViewerState) (g : String) :
    (selectGroup g s).logs = s.logs ∧ (clearLogs s).logs = [] :=
  ⟨rfl, rfl⟩

/-- C7, confirmed: with a non-empty correlation string the display projection
is exactly the filter of the accumulated list by case-sensitive substring
containment in the message text; with no correlation string it is the
accumulated list unchanged; on the concrete spec example it returns exactly
the first record. -/
theorem C7_theorem (e : String) (logs : List FilteredLogEvent) (h : ¬ e = "") :
    filteredLogs (some e) logs = logs.filter (messageMatches e)
      ∧ filteredLogs none logs = logs
      ∧ filteredLogs (some "email-123") [rec123, recUnrelated] = [rec123] := by
  refine ⟨?_, rfl, by decide⟩
  have hbe : (e == "") = false := by
    simpa using h
  simp only [filteredLogs, hbe, Bool.false_eq_true, if_false]
  apply List.filter_congr
  intro r _
  cases hr : r.message <;> simp [messageMatches, hr]

/-- C7, witness at the concrete correlation string of the spec example. -/
theorem C7_theorem_witness :
    filteredLogs (some "email-123") [rec123, recUnrelated] =
        List.filter (messageMatches "email-123") [rec123, recUnrelated]
      ∧ filteredLogs none [rec123, recUnrelated] = [rec123, recUnrelated]
      ∧ filteredLogs (some "email-123") [rec123, recUnrelated] = [rec123] :=
  C7_theorem "email-123" [rec123, recUnrelated] (by decide)

/-- C8, confirmed: both selection handlers validate before any network
activity; a file with a disallowed extension or a size above 10 MiB is
rejected with a user-visible message, the selected file is not updated, and
no request is issued; the upload handler issues no request without a
selected file. -/
theorem C8_theorem (s : UploadState) (f : JsFile)
    (h : hasAllowedExt f.name = false ∨ maxUploadBytes < f.size) :
    handleFileSelect (some f) s = handleDrop (some f) s
      ∧ (handleFileSelect (some f) s).2 = 0
      ∧ (handleFileSelect (some f) s).1.uploadStatus = UploadStatus.error
      ∧ (handleFileSelect (some f) s).1.uploadMessage ≠ ""
      ∧ (handleFileSelect (some f) s).1.selectedFile = s.selectedFile
      ∧ (∀ (o : UploadOutcome) (s2 : UploadState), s2.selectedFile = none →
          (handleUpload o s2).2 = 0) := by
  have hup : ∀ (o : UploadOutcome) (s2 : UploadState), s2.selectedFile = none →
      (handleUpload o s2).2 = 0 := by
    intro o s2 h2
    simp [handleUpload, h2]
  rcases hext : hasAllowedExt f.name with _ | _
  · have hcase : handleFileSelect (some f) s =
        ({ s with uploadStatus := .error,
                  uploadMessage := "Please select an email file (.eml, .msg, or .txt)" }, 0) := by
      simp [handleFileSelect, hext]
    have hcase2 : handleDrop (some f) s =
        ({ s with uploadStatus := .error,
                  uploadMessage := "Please select an email file (.eml, .msg, or .txt)" }, 0) := by
      simp [handleDrop, hext]
    rw [hcase, hcase2]
    exact ⟨rfl, rfl, rfl, by intro hco; simp at hco, rfl, hup⟩
  · have hsz : maxUploadBytes < f.size := by
      rcases h with h | h
      · rw [hext] at h; cases h
      · exact h
    have hcase : handleFileSelect (some f) s =
        ({ s with uploadStatus := .error,
                  uploadMessage := "File size must be less than 10MB" }, 0) := by
      simp [handleFileSelect, hext, hsz]
    have hcase2 : handleDrop (some f) s =
        ({ s with uploadStatus := .error,
                  uploadMessage := "File size must be less than 10MB" }, 0) := by
      simp [handleDrop, hext, hsz]
    rw [hcase, hcase2]
    exact ⟨rfl, rfl, rfl, by intro hco; simp at hco, rfl, hup⟩

/-- C8, witness: `report.pdf` is rejected for its extension and a 15 MiB
`.eml` file is rejected for its size, each with zero requests. -/
theorem C8_theorem_witness :
    ((handleFileSelect (some pdfFile) {}).2 = 0
        ∧ (handleFileSelect (some pdfFile) {}).1.uploadStatus = UploadStatus.error)
      ∧ ((handleFileSelect (some bigEmlFile) {}).2 = 0
        ∧ (handleFileSelect (some bigEmlFile) {}).1.uploadStatus = UploadStatus.error) :=
  ⟨⟨(C8_theorem {} pdfFile (Or.inl (by decide))).2.1,
    (C8_theorem {} pdfFile (Or.inl (by decide))).2.2.1⟩,
   ⟨(C8_theorem {} bigEmlFile (Or.inr (by decide))).2.1,
    (C8_theorem {} bigEmlFile (Or.inr (by decide))).2.2.1⟩⟩

/-- C9, confirmed: when the guard passes, the fetch cycle clears the error
state before the external request completes, a successful fetch ends with no
error recorded, and when the guard fails the whole state (the error state
included) is left unchanged with no request issued. -/
theorem C9_theorem (s : ViewerState) (append : Bool) (events : List FilteredLogEvent)
    (outcome : FetchOutcome) (h : fetchGuard s = true) :
    (fetchLogsStart s).1.error = none
      ∧ (fetchLogsStart s).2 = true
      ∧ (fetchLogs append (FetchOutcome.success events) s).1.error = none
      ∧ (∀ s2 : ViewerState, fetchGuard s2 = false →
          fetchLogs append outcome s2 = (s2, false)) := by
  refine ⟨?_, ?_, ?_, ?_⟩
  · simp [fetchLogsStart, h]
  · simp [fetchLogsStart, h]
  · simp [fetchLogs, fetchLogsStart, fetchLogsFinish, h]
  · intro s2 h2
    simp [fetchLogs, fetchLogsStart, h2]

/-- C9, witness at the concrete session state, with the no-client initial
state for the guard-failure conjunct. -/
theorem C9_theorem_witness :
    (fetchLogsStart sessionState).1.error = none
      ∧ (fetchLogsStart sessionState).2 = true
      ∧ (fetchLogs true (FetchOutcome.success [recB]) sessionState).1.error = none
      ∧ (∀ s2 : ViewerState, fetchGuard s2 = false →
          fetchLogs true (FetchOutcome.failure "Network error") s2 = (s2, false)) :=
  C9_theorem sessionState true [recB] (FetchOutcome.failure "Network error") (by decide)

/-- C10, confirmed: with a non-empty correlation string a record without a
message field is always excluded from the display projection, while with no
correlation string the projection keeps every accumulated record, that one
included. -/
theorem C10_theorem (e : String) (logs : List FilteredLogEvent) (r : FilteredLogEvent)
    (h : ¬ e = "") (hr : r.message = none) :
    r ∉ filteredLogs (some e) logs
      ∧ (r ∈ logs → r ∈ filteredLogs none logs) := by
  constructor
  · intro hmem
    have hbe : (e == "") = false := by
      simpa using h
    simp only [filteredLogs, hbe, Bool.false_eq_true, if_false] at hmem
    have hpred := List.of_mem_filter hmem
    rw [hr] at hpred
    simp at hpred
  · intro hmem
    simpa [filteredLogs] using hmem

/-- C10, witness: the message-less record is dropped by the correlation
filter but kept by the unfiltered projection. -/
theorem C10_theorem_witness :
    recNoMessage ∉ filteredLogs (some "email-123") [recNoMessage, rec123]
      ∧ (recNoMessage ∈ [recNoMessage, rec123] →
          recNoMessage ∈ filteredLogs none [recNoMessage, rec123]) :=
  C10_theorem "email-123" [recNoMessage, rec123] recNoMessage (by decide) (by decide)
